import Mathlib

/-!
A verification development for the flat-file scanner and database-recovery
driver of the Stash-Crypto/btcd recovery excerpt (the ffldb recovery code and
the standalone recovery command).

The Go code is embedded shallowly: pure functions become Lean functions; the
filesystem and the flat-file read primitive, which are external to the
excerpt, are passed in explicitly as an environment record; the replay loop,
whose termination depends on the on-disk data, is given explicit fuel and
returns an Option that is none exactly when the fuel runs out.  Go uint32
arithmetic is modelled on Nat with explicit reduction modulo 2^32.
-/

/-- Reduction modulo 2^32, modelling Go uint32 arithmetic. -/
def u32 (n : Nat) : Nat := n % 4294967296

/-- Model of ffldb blockLocation: identifies one serialized block record in
the flat-file sequence (fields blockFileNum, fileOffset, blockLen). -/
structure blockLocation where
  blockFileNum : Nat
  fileOffset : Nat
  blockLen : Nat
deriving DecidableEq

/-- Modelled from the spec: the raw byte buffer returned by the external read
primitive blockStore.readBlock.  The excerpt observes only its length
(len(block)) and whether wire.MsgBlock.Deserialize succeeds on it, so only
those two aspects are represented. -/
structure RawBlock where
  len : Nat
  deserOk : Bool
deriving DecidableEq

/-- Model of the btcutil.Block value built by getNextBlock from the (possibly
only partially) deserialized wire.MsgBlock.  It records the raw length of the
buffer it came from and whether Deserialize succeeded on that buffer. -/
structure Block where
  rawLen : Nat
  deserOk : Bool
deriving DecidableEq

/-- Model of the database error codes distinguished by the excerpt: the code
ErrCorruption, and any other database error code. -/
inductive ErrorCode where
  | errCorruption
  | otherCode (n : Nat)
deriving DecidableEq

/-- Model of Go error values seen by the excerpt: a database.Error carrying an
error code, or any other error value. -/
inductive GoError where
  | dbError (code : ErrorCode)
  | generic (msg : String)
deriving DecidableEq

/-- Model of isDbErrCorruption: true exactly for a database.Error whose code
is ErrCorruption. -/
def isDbErrCorruption : GoError → Bool
  | .dbError c => c == .errCorruption
  | .generic _ => false

/-- Decidable equality for Except results, used to evaluate the model on
concrete environments. -/
instance {a b : Type} [DecidableEq a] [DecidableEq b] : DecidableEq (Except a b) := fun x y => by
  cases x <;> cases y
  case error.error u v =>
    exact if h : u = v then isTrue (by rw [h]) else isFalse (by intro hc; injection hc; contradiction)
  case error.ok u v =>
    exact isFalse (by intro hc; injection hc)
  case ok.error u v =>
    exact isFalse (by intro hc; injection hc)
  case ok.ok u v =>
    exact if h : u = v then isTrue (by rw [h]) else isFalse (by intro hc; injection hc; contradiction)

/-- Modelled from the spec: the external collaborators of the scanner, which
are not part of the excerpt.  stat models blockFilePath plus os.Stat (some
size when the flat file exists, none when the stat fails); readBlock models
blockStore.readBlock called with the zero-hash sentinel (no hash check),
returning the raw record bytes or a Go error. -/
structure Env where
  stat : Nat → Option Nat
  readBlock : blockLocation → Except GoError RawBlock

/-- Model of the ffldb scanner value.  hasStore models whether the blockStore
pointer s.s is non-nil; the three Nat fields model the uint32 fields fileNum,
fileOff and fileLen.  The Go code appears identically in both source files of
the package. -/
structure scanner where
  hasStore : Bool
  fileNum : Nat
  fileOff : Nat
  fileLen : Nat
deriving DecidableEq

/-- The zero scanner value scanner{}: nil store, all fields zero. -/
def scanner.empty : scanner := ⟨false, 0, 0, 0⟩

/-- The scanner recoverDB starts from: scanner{s: db.store}, a bound store
with all position fields zero. -/
def scanner.init : scanner := ⟨true, 0, 0, 0⟩

/-- Model of scanner.getNextLocation: the location of the record the cursor
points at, with blockLen still zero. -/
def scanner.getNextLocation (s : scanner) : blockLocation :=
  ⟨s.fileNum, s.fileOff, 0⟩

/-- Result of one getNextBlock call: the Go quadruple
(scanner, *btcutil.Block, blockLocation, error), with the nilable pointer and
error modelled as Options. -/
structure GetNextResult where
  next : scanner
  blk : Option Block
  loc : blockLocation
  err : Option GoError
deriving DecidableEq

/-- The file-length probe inside getNextBlock: when fileLen is the zero
sentinel the file at fileNum is stat-ed (none when the stat fails, which the
code treats as end of the file list), and the int64 size is truncated to
uint32; otherwise the known length is used. -/
def scanner.probeLen (s : scanner) (env : Env) : Option Nat :=
  if s.fileLen = 0 then
    match env.stat s.fileNum with
    | none => none
    | some sz => some (u32 sz)
  else some s.fileLen

/-- Model of scanner.getNextBlock.  Mirrors the Go code: a nil store or a
failed stat returns the zero quadruple (end of data); a readBlock error
returns the zero scanner with that error; otherwise the error of
msgBlock.Deserialize is discarded (as in the source), the location gets
blockLen = uint32(len(block)) + 12, the offset advances by blockLen, and the
cursor rolls over to the next file when the new offset equals the file
length. -/
def scanner.getNextBlock (s : scanner) (env : Env) : GetNextResult :=
  if s.hasStore then
    match s.probeLen env with
    | none => ⟨scanner.empty, none, ⟨0, 0, 0⟩, none⟩
    | some flen =>
      match env.readBlock s.getNextLocation with
      | .error e => ⟨scanner.empty, none, ⟨0, 0, 0⟩, some e⟩
      | .ok raw =>
        let blockLen := u32 (u32 raw.len + 12)
        let newOff := u32 (s.fileOff + blockLen)
        if newOff = flen then
          ⟨⟨true, u32 (s.fileNum + 1), 0, 0⟩, some ⟨raw.len, raw.deserOk⟩,
            ⟨s.fileNum, s.fileOff, blockLen⟩, none⟩
        else
          ⟨⟨true, s.fileNum, newOff, flen⟩, some ⟨raw.len, raw.deserOk⟩,
            ⟨s.fileNum, s.fileOff, blockLen⟩, none⟩
  else ⟨scanner.empty, none, ⟨0, 0, 0⟩, none⟩

/-- The scanner obtained from s after n getNextBlock transitions. -/
def scanAfter (env : Env) (s : scanner) : Nat → scanner
  | 0 => s
  | n + 1 => ((scanAfter env s n).getNextBlock env).next

/-- The result of the (n+1)-st getNextBlock call starting from s; index n
corresponds to logical record position n+1. -/
def scanOutcome (env : Env) (s : scanner) (n : Nat) : GetNextResult :=
  (scanAfter env s n).getNextBlock env

/-- Model of the loop of the callback-taking recoverDB variant, instrumented
with a ghost trace of the (block, location) pairs handed to the callback f.
Each iteration increments blocksRead (uint32), calls getNextBlock, turns a
corruption error into a clean stop, propagates any other error, stops cleanly
on a nil block, and otherwise hands the block to f, stopping with the error
f returns, if any.  Fuel bounds the number of iterations; none means the fuel
ran out before the loop stopped. -/
def recoverLoopT (env : Env) (f : Block → blockLocation → Option GoError) :
    scanner → Nat → Nat → Option (Nat × Option GoError × List (Block × blockLocation))
  | _, _, 0 => none
  | s, n, fuel + 1 =>
    match s.getNextBlock env with
    | ⟨nxt, blkOpt, loc, errOpt⟩ =>
      match errOpt, blkOpt with
      | some e, _ =>
        if isDbErrCorruption e then some (u32 (n + 1), none, [])
        else some (u32 (n + 1), some e, [])
      | none, none => some (u32 (n + 1), none, [])
      | none, some b =>
        match f b loc with
        | some e => some (u32 (n + 1), some e, [(b, loc)])
        | none =>
          (recoverLoopT env f nxt (u32 (n + 1)) fuel).map
            (fun r => (r.1, r.2.1, (b, loc) :: r.2.2))

/-- Model of the callback-taking recoverDB (the variant that takes
f func(*btcutil.Block, blockLocation) error), with the ghost call trace.  It
first calls getNextBlock once to skip the genesis block, returning (0, err)
on any error there, then runs the loop. -/
def recoverDBT (env : Env) (f : Block → blockLocation → Option GoError)
    (fuel : Nat) : Option (Nat × Option GoError × List (Block × blockLocation)) :=
  match scanner.init.getNextBlock env with
  | ⟨nxt, _, _, errOpt⟩ =>
    match errOpt with
    | some e => some (0, some e, [])
    | none => recoverLoopT env f nxt 0 fuel

/-- The observable result of the callback-taking recoverDB: the
(blocksRead, err) pair the Go function returns, obtained by erasing the ghost
trace. -/
def recoverDB (env : Env) (f : Block → blockLocation → Option GoError)
    (fuel : Nat) : Option (Nat × Option GoError) :=
  (recoverDBT env f fuel).map (fun r => (r.1, r.2.1))

/-- Model of the loop of the other recoverDB variant, which calls
chain.ProcessBlock(blk, BFFastAdd|BFNoPoWCheck) inline instead of a callback.
process models ProcessBlock restricted to what the excerpt observes: the
error of its third return value. -/
def recoverLoopP (env : Env) (process : Block → Option GoError) :
    scanner → Nat → Nat → Option (Nat × Option GoError)
  | _, _, 0 => none
  | s, n, fuel + 1 =>
    match s.getNextBlock env with
    | ⟨nxt, blkOpt, _, errOpt⟩ =>
      match errOpt, blkOpt with
      | some e, _ =>
        if isDbErrCorruption e then some (u32 (n + 1), none)
        else some (u32 (n + 1), some e)
      | none, none => some (u32 (n + 1), none)
      | none, some b =>
        match process b with
        | some e => some (u32 (n + 1), some e)
        | none => recoverLoopP env process nxt (u32 (n + 1)) fuel

/-- Model of the recoverDB variant that calls chain.ProcessBlock inline:
genesis skip, then the loop. -/
def recoverDBP (env : Env) (process : Block → Option GoError)
    (fuel : Nat) : Option (Nat × Option GoError) :=
  match scanner.init.getNextBlock env with
  | ⟨nxt, _, _, errOpt⟩ =>
    match errOpt with
    | some e => some (0, some e)
    | none => recoverLoopP env process nxt 0 fuel

/-- Decidable check that one getNextBlock outcome is a successfully read
block that the callback f accepts: no error, a non-nil block, and f returning
nil on it. -/
def stepAccepted (f : Block → blockLocation → Option GoError)
    (r : GetNextResult) : Bool :=
  r.err.isNone &&
    (match r.blk with
     | some b => (f b r.loc).isNone
     | none => false)

/-- The (block, location) pair a successful getNextBlock outcome hands to the
callback (with a default block for the impossible nil case). -/
def callOf (r : GetNextResult) : Block × blockLocation :=
  (r.blk.getD ⟨0, true⟩, r.loc)

/-- The list of calls handed to the callback by m consecutive successful
getNextBlock steps starting from s. -/
def callList (env : Env) (s : scanner) (m : Nat) : List (Block × blockLocation) :=
  (List.range m).map (fun i => callOf (scanOutcome env s i))

/-- Model of the filesystem state the recovery command's staging step
manipulates (recoverDatabase in src/database/ffldb/recover/main.go).  Only
the four paths the staging step stats, creates, moves or removes are
represented: the root path, the live database directory dbPath = path/subdir,
the staging root recoveryPath = path/recovery, and the staged database
recoveryDbPath = recoveryPath/subdir.  A directory is modelled by an Option
Bool: none when absent, some d when present with d recording whether it holds
the original flat files. -/
structure RecoverFS where
  rootExists : Bool
  db : Option Bool
  recDir : Bool
  recDb : Option Bool
deriving DecidableEq

/-- Errors of the staging step, in the order the Go code can return them. -/
inductive StageError where
  | pathNotReadable
  | dbStatFailed
  | dbNotFound
deriving DecidableEq

/-- Model of the staging step of recoverDatabase: the directory protocol
executed before ffldb.RecoverDB is called.  Mirrors the Go code: fail if the
root path is absent; if the staging root is absent, require the live database
to exist and create the staging root; if the staged sub-path is absent,
require the live database to exist and move it into the staging root (the
shell command mv dbPath recoveryPath, modelled as an atomic move that is
assumed to succeed); finally remove any remnant at the live database path.
The returned Bool records whether the move was performed. -/
def stageDatabase (fs : RecoverFS) : Except StageError (RecoverFS × Bool) :=
  if fs.rootExists then
    match (if fs.recDir then Except.ok fs
           else match fs.db with
                | none => Except.error StageError.dbStatFailed
                | some _ => Except.ok { fs with recDir := true } :
           Except StageError RecoverFS) with
    | .error e => .error e
    | .ok fs1 =>
      match (match fs1.recDb with
             | none =>
               match fs1.db with
               | none => Except.error StageError.dbNotFound
               | some d => Except.ok ({ fs1 with db := none, recDb := some d }, true)
             | some _ => Except.ok (fs1, false) :
             Except StageError (RecoverFS × Bool)) with
      | .error e => .error e
      | .ok (fs2, moved) =>
        match fs2.db with
        | some _ => .ok ({ fs2 with db := none }, moved)
        | none => .ok (fs2, moved)
  else .error .pathNotReadable

/-- Number of copies of the original flat files present in a staging
filesystem state (at the live path and at the staged path). -/
def flatFileCopies (fs : RecoverFS) : Nat :=
  (match fs.db with | some true => 1 | _ => 0) +
    (match fs.recDb with | some true => 1 | _ => 0)

/-- Concrete environment: a single flat file 0 of length 36 holding three
records of raw length 0 (hence blockLen 12) at offsets 0, 12 and 24, with no
file 1; reads anywhere else fail. -/
def envEnd : Env where
  stat := fun n => if n = 0 then some 36 else none
  readBlock := fun loc =>
    if loc.blockFileNum = 0 ∧ (loc.fileOffset = 0 ∨ loc.fileOffset = 12 ∨ loc.fileOffset = 24)
    then .ok ⟨0, true⟩
    else .error (.generic "bad offset")

/-- Concrete environment: file 0 of length 100 whose very first record is
structurally corrupted (readBlock reports ErrCorruption everywhere). -/
def envCorrupt1 : Env where
  stat := fun n => if n = 0 then some 100 else none
  readBlock := fun _ => .error (.dbError .errCorruption)

/-- Concrete environment: file 0 of length 100 with one valid record of raw
length 0 at offset 0 and a structurally corrupted record at offset 12. -/
def envCorrupt2 : Env where
  stat := fun n => if n = 0 then some 100 else none
  readBlock := fun loc =>
    if loc.blockFileNum = 0 ∧ loc.fileOffset = 0 then .ok ⟨0, true⟩
    else .error (.dbError .errCorruption)

/-- Concrete environment: file 0 of length 100 whose record at offset 0 reads
successfully as a 30-byte buffer on which MsgBlock.Deserialize fails. -/
def envDeser : Env where
  stat := fun n => if n = 0 then some 100 else none
  readBlock := fun loc =>
    if loc.blockFileNum = 0 ∧ loc.fileOffset = 0 then .ok ⟨30, false⟩
    else .error (.generic "unreachable")

/-- Concrete environment with no flat files at all: every stat fails. -/
def envMissing : Env where
  stat := fun _ => none
  readBlock := fun _ => .error (.generic "no store")

theorem u32_eq_of_lt {n : Nat} (h : n < 4294967296) : u32 n = n :=
  Nat.mod_eq_of_lt h

theorem u32_lt (n : Nat) : u32 n < 4294967296 :=
  Nat.mod_lt _ (by decide)

theorem u32_add_left (n m : Nat) : u32 (u32 n + m) = u32 (n + m) :=
  Nat.mod_add_mod n 4294967296 m

theorem scanAfter_shift (env : Env) (s : scanner) (n : Nat) :
    scanAfter env s (n + 1) = scanAfter env ((s.getNextBlock env).next) n := by
  induction n with
  | zero => rfl
  | succ n ih =>
    show ((scanAfter env s (n + 1)).getNextBlock env).next =
      ((scanAfter env ((s.getNextBlock env).next) n).getNextBlock env).next
    rw [ih]

theorem scanOutcome_shift (env : Env) (s : scanner) (n : Nat) :
    scanOutcome env s (n + 1) = scanOutcome env ((s.getNextBlock env).next) n := by
  unfold scanOutcome
  rw [scanAfter_shift]

theorem empty_getNextBlock (env : Env) :
    scanner.empty.getNextBlock env = ⟨scanner.empty, none, ⟨0, 0, 0⟩, none⟩ := rfl

theorem scanAfter_empty (env : Env) (n : Nat) :
    scanAfter env scanner.empty n = scanner.empty := by
  induction n with
  | zero => rfl
  | succ n ih =>
    show ((scanAfter env scanner.empty n).getNextBlock env).next = scanner.empty
    rw [ih]
    rfl

theorem recoverLoopT_corrupt (env : Env) (f : Block → blockLocation → Option GoError)
    (s : scanner) (n fuel : Nat) (e : GoError)
    (he : (s.getNextBlock env).err = some e) (hc : isDbErrCorruption e = true) :
    recoverLoopT env f s n (fuel + 1) = some (u32 (n + 1), none, []) := by
  rcases hq : s.getNextBlock env with ⟨nxt, blkOpt, loc, errOpt⟩
  rw [hq] at he
  have herr : errOpt = some e := he
  subst herr
  simp only [recoverLoopT, hq, hc, if_true]

theorem recoverLoopT_fatal (env : Env) (f : Block → blockLocation → Option GoError)
    (s : scanner) (n fuel : Nat) (e : GoError)
    (he : (s.getNextBlock env).err = some e) (hc : isDbErrCorruption e = false) :
    recoverLoopT env f s n (fuel + 1) = some (u32 (n + 1), some e, []) := by
  rcases hq : s.getNextBlock env with ⟨nxt, blkOpt, loc, errOpt⟩
  rw [hq] at he
  have herr : errOpt = some e := he
  subst herr
  simp only [recoverLoopT, hq, hc, if_false]
  simp

theorem recoverLoopT_end (env : Env) (f : Block → blockLocation → Option GoError)
    (s : scanner) (n fuel : Nat)
    (he : (s.getNextBlock env).err = none) (hb : (s.getNextBlock env).blk = none) :
    recoverLoopT env f s n (fuel + 1) = some (u32 (n + 1), none, []) := by
  rcases hq : s.getNextBlock env with ⟨nxt, blkOpt, loc, errOpt⟩
  rw [hq] at he hb
  have herr : errOpt = none := he
  have hblk : blkOpt = none := hb
  subst herr; subst hblk
  simp only [recoverLoopT, hq]

theorem recoverLoopT_reject (env : Env) (f : Block → blockLocation → Option GoError)
    (s : scanner) (n fuel : Nat) (b : Block) (e : GoError)
    (he : (s.getNextBlock env).err = none) (hb : (s.getNextBlock env).blk = some b)
    (hf : f b (s.getNextBlock env).loc = some e) :
    recoverLoopT env f s n (fuel + 1) =
      some (u32 (n + 1), some e, [(b, (s.getNextBlock env).loc)]) := by
  rcases hq : s.getNextBlock env with ⟨nxt, blkOpt, loc, errOpt⟩
  rw [hq] at he hb hf
  have herr : errOpt = none := he
  have hblk : blkOpt = some b := hb
  subst herr; subst hblk
  simp only [recoverLoopT, hq]
  simp only [GetNextResult.loc] at hf
  simp [hf]

theorem recoverLoopT_accept (env : Env) (f : Block → blockLocation → Option GoError)
    (s : scanner) (n fuel : Nat)
    (h : stepAccepted f (s.getNextBlock env) = true) :
    recoverLoopT env f s n (fuel + 1) =
      (recoverLoopT env f ((s.getNextBlock env).next) (u32 (n + 1)) fuel).map
        (fun r => (r.1, r.2.1, callOf (s.getNextBlock env) :: r.2.2)) := by
  rcases hq : s.getNextBlock env with ⟨nxt, blkOpt, loc, errOpt⟩
  rw [hq] at h
  simp only [stepAccepted, GetNextResult.err, GetNextResult.blk, GetNextResult.loc,
    Bool.and_eq_true, Option.isNone_iff_eq_none] at h
  obtain ⟨herr, hacc⟩ := h
  subst herr
  rcases hblk : blkOpt with _ | b
  · rw [hblk] at hacc; simp at hacc
  · subst hblk
    simp only [Option.isNone_iff_eq_none] at hacc
    simp only [recoverLoopT, hq, hacc, callOf, GetNextResult.next, GetNextResult.blk,
      GetNextResult.loc, Option.getD_some]

theorem callList_shift (env : Env) (s : scanner) (m : Nat) :
    callList env s (m + 1) =
      callOf (s.getNextBlock env) :: callList env ((s.getNextBlock env).next) m := by
  unfold callList
  rw [List.range_succ_eq_map]
  simp only [List.map_cons, List.map_map]
  have hfun : ((fun i => callOf (scanOutcome env s i)) ∘ Nat.succ) =
      (fun i => callOf (scanOutcome env ((s.getNextBlock env).next) i)) := by
    funext i
    simp only [Function.comp_apply]
    rw [scanOutcome_shift]
  rw [hfun]
  rfl

theorem recoverLoopT_run (env : Env) (f : Block → blockLocation → Option GoError) :
    ∀ (m : Nat) (s : scanner) (n fuel : Nat), n < 4294967296 →
    (∀ i, i < m → stepAccepted f (scanOutcome env s i) = true) →
    recoverLoopT env f s n (m + fuel) =
      (recoverLoopT env f (scanAfter env s m) (u32 (n + m)) fuel).map
        (fun r => (r.1, r.2.1, callList env s m ++ r.2.2)) := by
  intro m
  induction m with
  | zero =>
    intro s n fuel hn _
    simp only [Nat.zero_add, Nat.add_zero]
    show recoverLoopT env f s n fuel =
      (recoverLoopT env f s (u32 n) fuel).map
        (fun r => (r.1, r.2.1, callList env s 0 ++ r.2.2))
    rw [u32_eq_of_lt hn]
    cases recoverLoopT env f s n fuel <;> rfl
  | succ m ih =>
    intro s n fuel hn hrun
    have h0 : stepAccepted f (s.getNextBlock env) = true := hrun 0 (Nat.succ_pos m)
    have hshift : ∀ i, i < m →
        stepAccepted f (scanOutcome env ((s.getNextBlock env).next) i) = true := by
      intro i hi
      rw [← scanOutcome_shift]
      exact hrun (i + 1) (by omega)
    have heq : m + 1 + fuel = (m + fuel) + 1 := by omega
    rw [heq, recoverLoopT_accept env f s n (m + fuel) h0,
      ih ((s.getNextBlock env).next) (u32 (n + 1)) fuel (u32_lt _) hshift,
      scanAfter_shift, callList_shift, Option.map_map, u32_add_left]
    have hidx : n + 1 + m = n + (m + 1) := by omega
    rw [hidx]
    rfl

/-- C5: a cursor whose fileLength sentinel is 0 and whose file is absent on
disk yields the end-of-data quadruple with no error. -/
theorem C5_missing_file_is_end_of_data (env : Env) (s : scanner)
    (h0 : s.fileLen = 0) (habs : env.stat s.fileNum = none) :
    s.getNextBlock env = ⟨scanner.empty, none, ⟨0, 0, 0⟩, none⟩ := by
  unfold scanner.getNextBlock
  have hp : s.probeLen env = none := by
    unfold scanner.probeLen
    rw [if_pos h0, habs]
  rw [hp]
  cases hs : s.hasStore <;> simp

theorem C5_witness :
    (⟨true, 7, 0, 0⟩ : scanner).fileLen = 0 ∧ envMissing.stat 7 = none ∧
      (⟨true, 7, 0, 0⟩ : scanner).getNextBlock envMissing =
        ⟨scanner.empty, none, ⟨0, 0, 0⟩, none⟩ :=
  ⟨rfl, rfl, C5_missing_file_is_end_of_data envMissing ⟨true, 7, 0, 0⟩ rfl rfl⟩

/-- C4: when advance successfully reads a raw block of length rawLen (within
uint32 range), the returned location carries blockLen = rawLen + 12, and the
next cursor rolls over to (fileNum+1, 0, 0) exactly when the advanced offset
equals the file length, keeping the same file with the advanced offset and
the known length otherwise. -/
theorem C4_advance_location_and_cursor (env : Env) (s : scanner)
    (flen rawLen : Nat) (d : Bool)
    (hs : s.hasStore = true)
    (hp : s.probeLen env = some flen)
    (hr : env.readBlock s.getNextLocation = .ok ⟨rawLen, d⟩)
    (hb : rawLen + 12 < 4294967296)
    (ho : s.fileOff + (rawLen + 12) < 4294967296)
    (hf : s.fileNum + 1 < 4294967296) :
    (s.getNextBlock env).err = none ∧
    (s.getNextBlock env).loc = ⟨s.fileNum, s.fileOff, rawLen + 12⟩ ∧
    (s.getNextBlock env).next =
      (if s.fileOff + (rawLen + 12) = flen then ⟨true, s.fileNum + 1, 0, 0⟩
       else ⟨true, s.fileNum, s.fileOff + (rawLen + 12), flen⟩ : scanner) := by
  have hraw : u32 (u32 rawLen + 12) = rawLen + 12 := by
    rw [u32_add_left, u32_eq_of_lt hb]
  have hoff : u32 (s.fileOff + (rawLen + 12)) = s.fileOff + (rawLen + 12) :=
    u32_eq_of_lt ho
  unfold scanner.getNextBlock
  rw [hs, hp, hr]
  simp only [if_true, hraw, hoff]
  by_cases hc : s.fileOff + (rawLen + 12) = flen
  · rw [if_pos hc, if_pos hc]
    exact ⟨rfl, rfl, by rw [u32_eq_of_lt hf]⟩
  · rw [if_neg hc, if_neg hc]
    exact ⟨rfl, rfl, rfl⟩

theorem C4_witness :
    scanner.init.hasStore = true ∧
    scanner.init.probeLen envDeser = some 100 ∧
    envDeser.readBlock scanner.init.getNextLocation = .ok ⟨30, false⟩ ∧
    (scanner.init.getNextBlock envDeser).err = none ∧
    (scanner.init.getNextBlock envDeser).loc = ⟨0, 0, 42⟩ ∧
    (scanner.init.getNextBlock envDeser).next = ⟨true, 0, 42, 100⟩ := by
  have h := C4_advance_location_and_cursor envDeser scanner.init 100 30 false
    (by decide) (by decide) (by decide) (by decide) (by decide) (by decide)
  exact ⟨rfl, rfl, rfl, h.1, h.2.1, h.2.2⟩

/-- C3 exhibit: a record that reads successfully but fails to deserialize is
returned by getNextBlock as a non-nil block with nil error, because the Go
code discards the error of msgBlock.Deserialize; the spec calls for a hard
error here. -/
theorem C3_deserialization_failure_not_an_error :
    envDeser.readBlock scanner.init.getNextLocation = .ok ⟨30, false⟩ ∧
    (scanner.init.getNextBlock envDeser).err = none ∧
    (scanner.init.getNextBlock envDeser).blk = some ⟨30, false⟩ := by
  decide

/-- C9: whenever getNextBlock returns end of data or an error, the scanner it
returns is the zero value with no store reference, and every later advance
from that returned scanner is again end of data with no block and no
error. -/
theorem getNextBlock_cases (env : Env) (s : scanner) :
    (s.getNextBlock env).next = scanner.empty ∨
    ((s.getNextBlock env).err = none ∧ (s.getNextBlock env).blk ≠ none) := by
  cases hs : s.hasStore
  · left
    simp [scanner.getNextBlock, hs]
  · cases hp : s.probeLen env
    · left
      simp [scanner.getNextBlock, hs, hp]
    · cases hr : env.readBlock s.getNextLocation
      · left
        simp [scanner.getNextBlock, hs, hp, hr]
      · right
        simp only [scanner.getNextBlock, hs, hp, hr, if_true]
        split <;> simp

theorem C9_end_of_data_absorbing (env : Env) (s : scanner)
    (h : (s.getNextBlock env).blk = none ∨ (s.getNextBlock env).err ≠ none) :
    (s.getNextBlock env).next = scanner.empty ∧
    ∀ (env2 : Env) (n : Nat),
      scanOutcome env2 ((s.getNextBlock env).next) n =
        ⟨scanner.empty, none, ⟨0, 0, 0⟩, none⟩ := by
  have hnext : (s.getNextBlock env).next = scanner.empty := by
    rcases getNextBlock_cases env s with hc | ⟨he, hb⟩
    · exact hc
    · rcases h with h | h
      · exact absurd h hb
      · exact absurd he h
  refine ⟨hnext, ?_⟩
  intro env2 n
  rw [hnext]
  unfold scanOutcome
  rw [scanAfter_empty]
  exact empty_getNextBlock env2

theorem C9_witness :
    ((scanner.init.getNextBlock envMissing).blk = none ∨
      (scanner.init.getNextBlock envMissing).err ≠ none) ∧
    (scanner.init.getNextBlock envMissing).next = scanner.empty ∧
    scanOutcome envEnd ((scanner.init.getNextBlock envMissing).next) 5 =
      ⟨scanner.empty, none, ⟨0, 0, 0⟩, none⟩ := by
  have h := C9_end_of_data_absorbing envMissing scanner.init (Or.inl (by decide))
  exact ⟨Or.inl (by decide), h.1, h.2 envEnd 5⟩

theorem recoverLoopP_eq_loopT (env : Env) (process : Block → Option GoError) :
    ∀ (fuel : Nat) (s : scanner) (n : Nat),
    recoverLoopP env process s n fuel =
      (recoverLoopT env (fun b _ => process b) s n fuel).map (fun r => (r.1, r.2.1)) := by
  intro fuel
  induction fuel with
  | zero => intro s n; rfl
  | succ fuel ih =>
    intro s n
    rcases hq : s.getNextBlock env with ⟨nxt, blkOpt, loc, errOpt⟩
    cases errOpt with
    | some e =>
      simp only [recoverLoopP, recoverLoopT, hq]
      cases hc : isDbErrCorruption e <;> simp [hc]
    | none =>
      cases blkOpt with
      | none =>
        simp only [recoverLoopP, recoverLoopT, hq]
        rfl
      | some b =>
        cases hpb : process b with
        | some e =>
          simp only [recoverLoopP, recoverLoopT, hq, hpb]
          rfl
        | none =>
          simp only [recoverLoopP, recoverLoopT, hq, hpb,
            ih nxt (u32 (n + 1)), Option.map_map]
          rfl

/-- C10: the recoverDB variant that calls chain.ProcessBlock inline and the
callback-taking recoverDB variant invoked with a callback that only calls
that processing function return the same (blocksRead, error) pair, for every
environment, every processing function and every fuel bound. -/
theorem C10_loop_variants_equivalent (env : Env)
    (process : Block → Option GoError) (fuel : Nat) :
    recoverDBP env process fuel = recoverDB env (fun b _ => process b) fuel := by
  unfold recoverDBP recoverDB recoverDBT
  rcases hq : scanner.init.getNextBlock env with ⟨nxt, blkOpt, loc, errOpt⟩
  simp only [hq]
  cases errOpt with
  | some e => rfl
  | none => exact recoverLoopP_eq_loopT env process fuel nxt 0

theorem recoverDBT_skip (env : Env) (f : Block → blockLocation → Option GoError)
    (fuel : Nat) (h : (scanner.init.getNextBlock env).err = none) :
    recoverDBT env f fuel =
      recoverLoopT env f ((scanner.init.getNextBlock env).next) 0 fuel := by
  unfold recoverDBT
  rcases hq : scanner.init.getNextBlock env with ⟨nxt, blkOpt, loc, errOpt⟩
  rw [hq] at h
  have herr : errOpt = none := h
  subst herr
  rfl

/-- C1 (amended): for a flat-file sequence whose records at positions 1..k-1
read successfully, whose blocks at positions 2..k-1 the callback accepts, and
whose record at position k (k at least 2) is structurally corrupted, recoverDB
returns success with blocksRead = k-1 and no error, whatever the environment
holds beyond position k.  (Position p is the outcome of the p-th getNextBlock
call from the initial cursor; position 1 is the skipped genesis record.) -/
theorem C1_trailing_corruption_recovered (env : Env)
    (f : Block → blockLocation → Option GoError) (k fuel : Nat) (e : GoError)
    (hk2 : 2 ≤ k) (hksz : k < 4294967296) (hfuel : k - 1 ≤ fuel)
    (hskip : (scanOutcome env scanner.init 0).err = none)
    (hrun : ∀ i, i < k - 2 → stepAccepted f (scanOutcome env scanner.init (i + 1)) = true)
    (hcorr : (scanOutcome env scanner.init (k - 1)).err = some e)
    (hcode : isDbErrCorruption e = true) :
    recoverDB env f fuel = some (k - 1, none) := by
  obtain ⟨m, rfl⟩ : ∃ m, k = m + 2 := ⟨k - 2, by omega⟩
  have hm1 : m + 2 - 1 = m + 1 := by omega
  have hm2 : m + 2 - 2 = m := by omega
  rw [hm1] at hfuel hcorr ⊢
  rw [hm2] at hrun
  obtain ⟨fuel2, rfl⟩ : ∃ fuel2, fuel = m + (fuel2 + 1) := ⟨fuel - m - 1, by omega⟩
  unfold recoverDB
  rw [recoverDBT_skip env f _ hskip]
  have hrun1 : ∀ i, i < m →
      stepAccepted f (scanOutcome env ((scanner.init.getNextBlock env).next) i) = true := by
    intro i hi
    rw [← scanOutcome_shift]
    exact hrun i hi
  rw [recoverLoopT_run env f m ((scanner.init.getNextBlock env).next) 0 (fuel2 + 1)
    (by decide) hrun1]
  have hterm : ((scanAfter env ((scanner.init.getNextBlock env).next) m).getNextBlock env).err
      = some e := by
    rw [scanOutcome_shift] at hcorr
    exact hcorr
  rw [recoverLoopT_corrupt env f _ (u32 (0 + m)) fuel2 e hterm hcode]
  have hu : u32 (u32 m + 1) = m + 1 := by
    rw [u32_add_left, u32_eq_of_lt (by omega)]
  simp [hu]

/-- C2 (amended): for a flat-file sequence of N valid records (N at least 1)
followed by end of data, all accepted by the callback, recoverDB from the
initial cursor, after skipping the first record, hands exactly N-1 blocks to
the callback and reports blocksRead = N. -/
theorem C2_replay_counts_all_advances (env : Env)
    (f : Block → blockLocation → Option GoError) (N fuel : Nat)
    (hN : 1 ≤ N) (hNsz : N < 4294967296) (hfuel : N ≤ fuel)
    (hskip : (scanOutcome env scanner.init 0).err = none)
    (_hfirst : (scanOutcome env scanner.init 0).blk.isSome = true)
    (hrun : ∀ i, i < N - 1 → stepAccepted f (scanOutcome env scanner.init (i + 1)) = true)
    (hendErr : (scanOutcome env scanner.init N).err = none)
    (hendBlk : (scanOutcome env scanner.init N).blk = none) :
    (recoverDBT env f fuel).map (fun r => (r.1, r.2.1, r.2.2.length)) =
      some (N, none, N - 1) := by
  obtain ⟨m, rfl⟩ : ∃ m, N = m + 1 := ⟨N - 1, by omega⟩
  have hm1 : m + 1 - 1 = m := by omega
  rw [hm1] at hrun ⊢
  obtain ⟨fuel2, rfl⟩ : ∃ fuel2, fuel = m + (fuel2 + 1) := ⟨fuel - m - 1, by omega⟩
  rw [recoverDBT_skip env f _ hskip]
  have hrun1 : ∀ i, i < m →
      stepAccepted f (scanOutcome env ((scanner.init.getNextBlock env).next) i) = true := by
    intro i hi
    rw [← scanOutcome_shift]
    exact hrun i hi
  rw [recoverLoopT_run env f m ((scanner.init.getNextBlock env).next) 0 (fuel2 + 1)
    (by decide) hrun1]
  rw [scanOutcome_shift] at hendErr hendBlk
  rw [recoverLoopT_end env f _ (u32 (0 + m)) fuel2 hendErr hendBlk]
  have hu : u32 (u32 m + 1) = m + 1 := by
    rw [u32_add_left, u32_eq_of_lt (by omega)]
  simp [hu, callList]

/-- C6: when the callback accepts the blocks at positions 2..j-1 and rejects
the block at position j (j at least 2) with error e, recoverDB stops
immediately, returning e as its error with blocksRead = j-1, and exactly j-1
blocks in total are handed to the callback (the rejected one last, none
after it). -/
theorem C6_rejection_stops_replay (env : Env)
    (f : Block → blockLocation → Option GoError) (j fuel : Nat) (b : Block) (e : GoError)
    (hj : 2 ≤ j) (hjsz : j < 4294967296) (hfuel : j - 1 ≤ fuel)
    (hskip : (scanOutcome env scanner.init 0).err = none)
    (hrun : ∀ i, i < j - 2 → stepAccepted f (scanOutcome env scanner.init (i + 1)) = true)
    (hread : (scanOutcome env scanner.init (j - 1)).err = none)
    (hblk : (scanOutcome env scanner.init (j - 1)).blk = some b)
    (hrej : f b (scanOutcome env scanner.init (j - 1)).loc = some e) :
    (recoverDBT env f fuel).map (fun r => (r.1, r.2.1, r.2.2.length)) =
      some (j - 1, some e, j - 1) := by
  obtain ⟨m, rfl⟩ : ∃ m, j = m + 2 := ⟨j - 2, by omega⟩
  have hm1 : m + 2 - 1 = m + 1 := by omega
  have hm2 : m + 2 - 2 = m := by omega
  rw [hm1] at hfuel hread hblk hrej ⊢
  rw [hm2] at hrun
  obtain ⟨fuel2, rfl⟩ : ∃ fuel2, fuel = m + (fuel2 + 1) := ⟨fuel - m - 1, by omega⟩
  rw [recoverDBT_skip env f _ hskip]
  have hrun1 : ∀ i, i < m →
      stepAccepted f (scanOutcome env ((scanner.init.getNextBlock env).next) i) = true := by
    intro i hi
    rw [← scanOutcome_shift]
    exact hrun i hi
  rw [recoverLoopT_run env f m ((scanner.init.getNextBlock env).next) 0 (fuel2 + 1)
    (by decide) hrun1]
  rw [scanOutcome_shift] at hread hblk hrej
  rw [recoverLoopT_reject env f _ (u32 (0 + m)) fuel2 b e hread hblk hrej]
  have hu : u32 (u32 m + 1) = m + 1 := by
    rw [u32_add_left, u32_eq_of_lt (by omega)]
  simp [hu, callList]

/-- C1 counterexample: with the corrupted record at logical position k = 1,
the corruption error is hit by the genesis-skip advance and recoverDB returns
it as a fatal error with blocksRead = 0, not success as the claim states. -/
theorem C1_counterexample :
    recoverDB envCorrupt1 (fun _ _ => none) 10 =
      some (0, some (.dbError .errCorruption)) ∧
    recoverDB envCorrupt1 (fun _ _ => none) 10 ≠ some (0, none) := by
  decide

theorem C1_witness :
    recoverDB envCorrupt2 (fun _ _ => none) 10 = some (1, none) :=
  C1_trailing_corruption_recovered envCorrupt2 (fun _ _ => none) 2 10
    (.dbError .errCorruption) (by decide) (by decide) (by decide) (by decide)
    (fun i hi => absurd hi (by omega)) (by decide) (by decide)

/-- C2 counterexample: for N = 3 valid records followed by end of data,
recoverDB reports blocksRead = 3, not N - 1 = 2 as the claim states, because
blocksRead also counts the final advance that hits end of data. -/
theorem C2_counterexample :
    recoverDB envEnd (fun _ _ => none) 10 = some (3, none) ∧
    recoverDB envEnd (fun _ _ => none) 10 ≠ some (2, none) := by
  decide

theorem C2_witness :
    (recoverDBT envEnd (fun _ _ => none) 10).map (fun r => (r.1, r.2.1, r.2.2.length)) =
      some (3, none, 2) :=
  C2_replay_counts_all_advances envEnd (fun _ _ => none) 3 10
    (by decide) (by decide) (by decide) (by decide) (by decide) (by decide)
    (by decide) (by decide)

theorem C6_witness :
    (recoverDBT envEnd
        (fun _ loc => if loc.fileOffset = 24 then some (.generic "rej") else none) 10).map
      (fun r => (r.1, r.2.1, r.2.2.length)) = some (2, some (.generic "rej"), 2) :=
  C6_rejection_stops_replay envEnd
    (fun _ loc => if loc.fileOffset = 24 then some (.generic "rej") else none) 3 10
    ⟨0, true⟩ (.generic "rej")
    (by decide) (by decide) (by decide) (by decide) (by decide) (by decide)
    (by decide) (by decide)

/-- C7: starting from a state with the live database holding the flat files
and nothing staged, the staging step of recoverDatabase moves the data into
the staging sub-path; running the staging step again on the resulting state
performs no move and leaves the state unchanged, and exactly one copy of the
flat files exists throughout. -/
theorem C7_staging_reentrant (fs : RecoverFS)
    (hroot : fs.rootExists = true) (hdb : fs.db = some true) (hstag : fs.recDb = none) :
    stageDatabase fs = .ok (⟨true, none, true, some true⟩, true) ∧
    stageDatabase ⟨true, none, true, some true⟩ =
      .ok (⟨true, none, true, some true⟩, false) ∧
    flatFileCopies ⟨true, none, true, some true⟩ = 1 ∧
    flatFileCopies fs = 1 := by
  rcases fs with ⟨r, db, rd, rdb⟩
  have hr : r = true := hroot
  have hd : db = some true := hdb
  have hs : rdb = none := hstag
  subst hr
  subst hd
  subst hs
  cases rd
  · exact ⟨rfl, rfl, rfl, rfl⟩
  · exact ⟨rfl, rfl, rfl, rfl⟩

theorem C7_witness :
    stageDatabase ⟨true, some true, false, none⟩ =
      .ok (⟨true, none, true, some true⟩, true) ∧
    stageDatabase ⟨true, none, true, some true⟩ =
      .ok (⟨true, none, true, some true⟩, false) ∧
    flatFileCopies ⟨true, none, true, some true⟩ = 1 ∧
    flatFileCopies ⟨true, some true, false, none⟩ = 1 :=
  C7_staging_reentrant ⟨true, some true, false, none⟩ rfl rfl rfl
